import Mathlib

/-!
# QAnotherRTSP — verification of the decode-supervisor core

Shallow embedding of the per-camera decode supervisor of QAnotherRTSP
(`camera.go`, `video.go`, the recorder block and the small utility
functions), together with proofs of the spec's testable properties.

Modelling conventions:
* Go durations (`time.Duration`, int64 nanoseconds) are `Nat` nanoseconds —
  all durations handled by this code are non-negative constants.
* The frame-buffer sequence number is a Go `uint64`; its increment is
  modelled with an explicit `% 2 ^ 64`.
* Go `float64` arithmetic in the gap estimator and the health heuristic is
  modelled exactly over `ℚ`; on the inputs of the claims the float
  computation is exact in the same way.
* Go strings are modelled as `List Char`; the inputs involved are ASCII,
  and `unicode.IsSpace` is modelled on its ASCII fragment.
-/

/-! ## Restart/Backoff controller (`camera.go`) -/

/-- One nanosecond-denominated millisecond, as in `time.Millisecond`. -/
def millisecondNS : Nat := 1000000

/-- One nanosecond-denominated second, as in `time.Second`. -/
def secondNS : Nat := 1000 * millisecondNS

/-- `30 * time.Second`, the backoff cap in `setReconnectSoon`. -/
def thirtySecondsNS : Nat := 30 * secondNS

/-- Result of one `setReconnectSoon` call: the backoff actually used for
scheduling, the `nextTry` timestamp it wrote, and the mutated `backoff`
field left for the next failure. -/
structure ReconnectResult where
  used : Nat
  nextTry : Nat
  backoff : Nat
deriving Repr, DecidableEq

/-- `CamWindow.setReconnectSoon` (camera.go): clamp the current backoff into
`[1s, 30s]`, schedule `nextTry = now + backoff`, then double the backoff
(capped at 30s) for the next consecutive failure. -/
def setReconnectSoon (backoff now : Nat) : ReconnectResult :=
  let b1 := if backoff = 0 then secondNS else backoff
  let b2 := if b1 > thirtySecondsNS then thirtySecondsNS else b1
  let next := now + b2
  let b3 :=
    if b2 < thirtySecondsNS then
      if b2 * 2 > thirtySecondsNS then thirtySecondsNS else b2 * 2
    else b2
  ⟨b2, next, b3⟩

/-- `newCamWindow` initialises `backoff: time.Second`. -/
def initialBackoffNS : Nat := secondNS

/-- The `backoff` field after `n` consecutive decode-attempt failures
(each failure runs `setReconnectSoon`), starting from a fresh window. -/
def backoffAfterFailures : Nat → Nat
  | 0 => initialBackoffNS
  | n + 1 => (setReconnectSoon (backoffAfterFailures n) 0).backoff

/-- The backoff adjustment at the end of `restartDecoder` (camera.go):
`if w.backoff == 0 || w.backoff > time.Second { w.backoff = 250ms }`. -/
def restartDecoderBackoffAdjust (b : Nat) : Nat :=
  if b = 0 ∨ b > secondNS then 250 * millisecondNS else b

/-- `CamWindow.RestartWith` (camera.go): sets `w.backoff = 250ms` and then
runs `restartDecoder`, whose adjustment leaves it unchanged.  The prior
backoff value is discarded. -/
def restartWithBackoff (_priorBackoff : Nat) : Nat :=
  restartDecoderBackoffAdjust (250 * millisecondNS)

theorem setReconnect_backoff_min (x : Nat) (hx : 1 ≤ x) :
    (setReconnectSoon (min (x * secondNS) thirtySecondsNS) 0).backoff
      = min (x * 2 * secondNS) thirtySecondsNS := by
  simp only [setReconnectSoon, secondNS, thirtySecondsNS, millisecondNS,
    Nat.min_def]
  split_ifs <;> first | exact False.elim (by assumption) | omega

theorem setReconnect_used_nextTry (x now : Nat) (hx : 1 ≤ x) :
    (setReconnectSoon (min (x * secondNS) thirtySecondsNS) now).used
      = min (x * secondNS) thirtySecondsNS
  ∧ (setReconnectSoon (min (x * secondNS) thirtySecondsNS) now).nextTry
      = now + min (x * secondNS) thirtySecondsNS := by
  simp only [setReconnectSoon, secondNS, thirtySecondsNS, millisecondNS,
    Nat.min_def]
  constructor <;>
    (split_ifs <;> first | exact False.elim (by assumption) | omega)

theorem backoffAfterFailures_closed (n : Nat) :
    backoffAfterFailures n = min (2 ^ n * secondNS) thirtySecondsNS := by
  induction n with
  | zero =>
    simp [backoffAfterFailures, initialBackoffNS, secondNS, thirtySecondsNS,
      millisecondNS]
  | succ n ih =>
    rw [backoffAfterFailures, ih,
      setReconnect_backoff_min _ Nat.one_le_two_pow, pow_succ]

/-! ## Frame buffer (`video.go`, `frameBuf`) -/

/-- State of the single-slot latest-frame store `frameBuf`.  `backing`
models the Go slice's full underlying array (its length is the slice
capacity); `b` is the visible slice `f.b`. -/
structure FrameBuf where
  seq : Nat
  w : Nat
  h : Nat
  b : List UInt8
  backing : List UInt8
deriving Repr, DecidableEq

/-- The zero value of `frameBuf` inside a fresh `CamWindow`. -/
def FrameBuf.init : FrameBuf := ⟨0, 0, 0, [], []⟩

/-- Go's `copy(dst, src)`: overwrite the first `min |dst| |src|` bytes of
`dst` with those of `src`, keeping the rest of `dst`. -/
def goCopy (dst src : List UInt8) : List UInt8 :=
  src.take dst.length ++ dst.drop src.length

/-- `frameBuf.put` (video.go): size the buffer to `w*h*4` (reallocating a
zero buffer when capacity is short, reslicing the backing array
otherwise), copy `src` in, store the geometry, and bump the `uint64`
sequence number. -/
def FrameBuf.put (f : FrameBuf) (w h : Nat) (src : List UInt8) :
    FrameBuf × Nat :=
  let n := w * h * 4
  let base := if f.backing.length < n then List.replicate n 0
    else f.backing.take n
  let newB := goCopy base src
  let newBacking := if f.backing.length < n then newB
    else newB ++ f.backing.drop n
  let newSeq := (f.seq + 1) % 2 ^ 64
  (⟨newSeq, w, h, newB, newBacking⟩, newSeq)

/-- `frameBuf.get` (video.go): returns `(seq, w, h, data)`. -/
def FrameBuf.get (f : FrameBuf) : Nat × Nat × Nat × List UInt8 :=
  (f.seq, f.w, f.h, f.b)

/-- Arguments of one `put` call. -/
structure PutOp where
  w : Nat
  h : Nat
  src : List UInt8

/-- Run a sequence of `put` calls from a given buffer state. -/
def FrameBuf.runFrom (f : FrameBuf) (ops : List PutOp) : FrameBuf :=
  ops.foldl (fun g op => (g.put op.w op.h op.src).1) f

/-- Run a sequence of `put` calls on a fresh buffer. -/
def FrameBuf.run (ops : List PutOp) : FrameBuf :=
  FrameBuf.init.runFrom ops

theorem FrameBuf.seq_put (f : FrameBuf) (w h : Nat) (src : List UInt8) :
    ((f.put w h src).1).seq = (f.seq + 1) % 2 ^ 64 := rfl

theorem FrameBuf.seq_runFrom (ops : List PutOp) (f : FrameBuf)
    (hf : f.seq < 2 ^ 64) :
    (f.runFrom ops).seq = (f.seq + ops.length) % 2 ^ 64 := by
  induction ops generalizing f with
  | nil =>
    simp only [FrameBuf.runFrom, List.foldl_nil, List.length_nil]
    omega
  | cons op l ih =>
    have hstep : f.runFrom (op :: l) = ((f.put op.w op.h op.src).1).runFrom l := by
      simp [FrameBuf.runFrom]
    have hlt : ((f.put op.w op.h op.src).1).seq < 2 ^ 64 := by
      rw [FrameBuf.seq_put]
      exact Nat.mod_lt _ (by positivity)
    rw [hstep, ih _ hlt, FrameBuf.seq_put, Nat.mod_add_mod, List.length_cons]
    omega

theorem FrameBuf.length_put (f : FrameBuf) (w h : Nat) (src : List UInt8) :
    ((f.put w h src).1).b.length = w * h * 4 := by
  simp only [FrameBuf.put, goCopy]
  have hbase : (if f.backing.length < w * h * 4 then
      List.replicate (w * h * 4) (0 : UInt8)
    else f.backing.take (w * h * 4)).length = w * h * 4 := by
    split_ifs with hc
    · simp
    · simp [Nat.min_eq_left (Nat.le_of_not_lt hc)]
  simp only [List.length_append, List.length_take, List.length_drop, hbase]
  omega

/-- **C1**: starting from a fresh camera window, after `N` consecutive
decode-attempt failures (no manual restart in between) the `N`-th call of
`setReconnectSoon` uses a backoff of `min (2^(N-1) s) (30 s)` and writes
`nextTry = now + backoff`; `RestartWith` resets the backoff to 250 ms
regardless of the prior value. -/
theorem C1_backoff_growth_and_manual_restart (N now : Nat) (hN : 1 ≤ N) :
    (setReconnectSoon (backoffAfterFailures (N - 1)) now).used
        = min (2 ^ (N - 1) * secondNS) thirtySecondsNS
  ∧ (setReconnectSoon (backoffAfterFailures (N - 1)) now).nextTry
        = now + min (2 ^ (N - 1) * secondNS) thirtySecondsNS
  ∧ ∀ priorBackoff : Nat,
      restartWithBackoff priorBackoff = 250 * millisecondNS := by
  refine ⟨?_, ?_, ?_⟩
  · rw [backoffAfterFailures_closed]
    exact (setReconnect_used_nextTry _ now Nat.one_le_two_pow).1
  · rw [backoffAfterFailures_closed]
    exact (setReconnect_used_nextTry _ now Nat.one_le_two_pow).2
  · intro p
    simp [restartWithBackoff, restartDecoderBackoffAdjust, secondNS,
      millisecondNS]

/-- Witness for C1 at `N = 3`, `now = 100`: the third failure's backoff is
4 seconds. -/
theorem C1_backoff_witness :
    (setReconnectSoon (backoffAfterFailures 2) 100).used = 4 * secondNS
  ∧ (setReconnectSoon (backoffAfterFailures 2) 100).nextTry
      = 100 + 4 * secondNS
  ∧ restartWithBackoff (17 * secondNS) = 250 * millisecondNS := by
  have h := C1_backoff_growth_and_manual_restart 3 100 (by norm_num)
  refine ⟨?_, ?_, h.2.2 (17 * secondNS)⟩
  · rw [h.1]
    norm_num [secondNS, millisecondNS, thirtySecondsNS]
  · rw [h.2.1]
    norm_num [secondNS, millisecondNS, thirtySecondsNS]

/-- **C2**: for every sequence of `put` calls (fewer than `2^64` of them,
the `uint64` wrap bound), `get` never returns a sequence number lower than
one returned earlier, after the first `put` the stored byte buffer length
is exactly `width * height * 4`, and the sequence number is `0` exactly
when no `put` has happened. -/
theorem C2_framebuf_monotone_consistent (ops more : List PutOp)
    (hlen : ops.length + more.length < 2 ^ 64) :
    ((FrameBuf.run ops).get).1 ≤ ((FrameBuf.run (ops ++ more)).get).1
  ∧ (ops ≠ [] →
      (FrameBuf.run ops).b.length
        = (FrameBuf.run ops).w * (FrameBuf.run ops).h * 4)
  ∧ (((FrameBuf.run ops).get).1 = 0 ↔ ops = []) := by
  have hseq : ∀ l : List PutOp, (FrameBuf.run l).seq = l.length % 2 ^ 64 := by
    intro l
    have h0 : (FrameBuf.init).seq < 2 ^ 64 := by
      simp [FrameBuf.init]
    simpa [FrameBuf.run, FrameBuf.init] using
      FrameBuf.seq_runFrom l FrameBuf.init h0
  refine ⟨?_, ?_, ?_⟩
  · show (FrameBuf.run ops).seq ≤ (FrameBuf.run (ops ++ more)).seq
    rw [hseq, hseq, List.length_append]
    rw [Nat.mod_eq_of_lt (by omega), Nat.mod_eq_of_lt (by omega)]
    omega
  · intro hne
    rcases List.eq_nil_or_concat ops with h | ⟨l, op, rfl⟩
    · exact absurd h hne
    · have hrun : FrameBuf.run (l.concat op)
          = ((FrameBuf.run l).put op.w op.h op.src).1 := by
        simp [FrameBuf.run, FrameBuf.runFrom, List.concat_eq_append]
      rw [hrun]
      have hw : (((FrameBuf.run l).put op.w op.h op.src).1).w = op.w := rfl
      have hh : (((FrameBuf.run l).put op.w op.h op.src).1).h = op.h := rfl
      rw [hw, hh]
      exact FrameBuf.length_put _ _ _ _
  · show (FrameBuf.run ops).seq = 0 ↔ ops = []
    rw [hseq, Nat.mod_eq_of_lt (by omega)]
    simp [List.length_eq_zero]

/-- Witness for C2 on a concrete one-`put` trace. -/
theorem C2_framebuf_witness :
    ((FrameBuf.run []).get).1
      ≤ ((FrameBuf.run ([] ++ [⟨1, 1, List.replicate 4 0⟩])).get).1
  ∧ (FrameBuf.run [⟨1, 1, List.replicate 4 0⟩]).b.length
      = (FrameBuf.run [⟨1, 1, List.replicate 4 0⟩]).w
          * (FrameBuf.run [⟨1, 1, List.replicate 4 0⟩]).h * 4 := by
  have h1 := C2_framebuf_monotone_consistent []
    [⟨1, 1, List.replicate 4 0⟩] (by norm_num)
  have h2 := C2_framebuf_monotone_consistent
    [⟨1, 1, List.replicate 4 0⟩] [] (by norm_num)
  exact ⟨h1.1, h2.2.1 (by simp)⟩

/-! ## Recorder sub-pipeline (recorder block of `openAndDecode`)

`startRecorder` / `closeRecorder` are closures inside `openAndDecode`;
the FFmpeg calls that can fail are abstracted as boolean outcomes in
`RecEnv`, and every allocation / free the source performs is recorded as
an explicit action so that resource teardown is provable. -/

/-- The recorder-owned FFmpeg resources. -/
inductive RecRes
  | oc
  | pb
  | aacCtx
  | swr
  | encFrame
deriving DecidableEq, Repr

/-- Recorder-relevant events, in source order. -/
inductive RecAct
  | buildPath
  | allocOC
  | freeOC
  | openIOCtx
  | closeFreeIOCtx
  | newVideoStream (inIdx : Nat)
  | newAudioStream
  | allocAac
  | freeAac
  | allocSwr
  | freeSwr
  | allocEncFrame
  | freeEncFrame
  | flushAudioEnc
  | writeTrailer
  | writeHeader
deriving DecidableEq, Repr

/-- The recorder fields of `CamWindow` (camera.go): pointers are modelled
as `Bool` (non-nil?), the stream-index map as an optional association
list. -/
structure RecState where
  recCtx : Bool
  recIOCtx : Bool
  recStreamIx : Option (List (Nat × Nat))
  aEncCtx : Bool
  aEncStream : Bool
  aSwr : Bool
  aEncFrame : Bool
deriving DecidableEq, Repr

/-- The action list `closeRecorder` emits for an open recorder, in source
order: flush the AAC encoder when present, write the trailer, close/free
the IO context, free the output container, then free the audio frame,
resampler and encoder context when present. -/
def closeRecorderActs (aEnc recIOCtx frame swr : Bool) : List RecAct :=
  (if aEnc then [RecAct.flushAudioEnc] else [])
    ++ [RecAct.writeTrailer]
    ++ (if recIOCtx then [RecAct.closeFreeIOCtx] else [])
    ++ [RecAct.freeOC]
    ++ (if frame then [RecAct.freeEncFrame] else [])
    ++ (if swr then [RecAct.freeSwr] else [])
    ++ (if aEnc then [RecAct.freeAac] else [])

/-- `closeRecorder` (video.go recorder block): a no-op when `recCtx` is
nil; otherwise flush, write trailer, and free all recorder resources
(`aEncStream` is owned by the freed container and is not reset). -/
def closeRecorder (s : RecState) : RecState × List RecAct :=
  if s.recCtx then
    (⟨false, false, none, false, s.aEncStream, false, false⟩,
      closeRecorderActs s.aEncCtx s.recIOCtx s.aEncFrame s.aSwr)
  else (s, [])

/-- One input stream as seen by the video-stream-copy loop, with the
outcomes of its `NewStream` / `CodecParameters.Copy` calls. -/
structure InStream where
  index : Nat
  isVideo : Bool
  newStreamOk : Bool
  copyParamsOk : Bool
deriving DecidableEq, Repr

/-- The video stream-copy loop of `startRecorder`: for each input video
stream, create an output stream (skipping the stream when `NewStream`
returns nil, which does not consume an output index) and record
`inputIndex ↦ outputIndex` unless the parameter copy fails (which does
consume the output index). -/
def buildVideoStreams : List InStream → Nat → List (Nat × Nat) × List RecAct
  | [], _ => ([], [])
  | is :: rest, nOut =>
    if ¬ is.isVideo then buildVideoStreams rest nOut
    else if ¬ is.newStreamOk then buildVideoStreams rest nOut
    else if ¬ is.copyParamsOk then
      let (m, a) := buildVideoStreams rest (nOut + 1)
      (m, RecAct.newVideoStream is.index :: a)
    else
      let (m, a) := buildVideoStreams rest (nOut + 1)
      ((is.index, nOut) :: m, RecAct.newVideoStream is.index :: a)

/-- The AAC audio-encoder setup block of `startRecorder`.  Every failure
in it is merely logged: a missing encoder / failed alloc leaves all fields
unset, a failed `ctx.Open` frees the context again, a failed `NewStream`
leaves only `aEncCtx` set, a failed resampler alloc leaves `aEncCtx` and
`aEncStream` set; recording proceeds in every case. -/
def setupAudioEnc (hasAudio aacFound aacAllocOk encOpenOk newStreamOk
    swrAllocOk : Bool) (s : RecState) : RecState × List RecAct :=
  if ¬ hasAudio then (s, [])
  else if ¬ aacFound then (s, [])
  else if ¬ aacAllocOk then (s, [])
  else if ¬ encOpenOk then (s, [RecAct.allocAac, RecAct.freeAac])
  else if ¬ newStreamOk then
    ({ s with aEncCtx := true }, [RecAct.allocAac])
  else if ¬ swrAllocOk then
    ({ s with aEncCtx := true, aEncStream := true },
      [RecAct.allocAac, RecAct.newAudioStream])
  else
    ({ s with aEncCtx := true, aEncStream := true, aSwr := true, aEncFrame := true },
      [RecAct.allocAac, RecAct.newAudioStream, RecAct.allocSwr,
        RecAct.allocEncFrame])

/-- Outcomes of the fallible calls made by one `startRecorder` attempt. -/
structure RecEnv where
  pathOk : Bool
  allocOutputOk : Bool
  openIOOk : Bool
  streams : List InStream
  hasAudio : Bool
  aacFound : Bool
  aacAllocOk : Bool
  encOpenOk : Bool
  audioNewStreamOk : Bool
  swrAllocOk : Bool
  writeHeaderOk : Bool
deriving Repr

/-- `startRecorder` (video.go recorder block), mirroring its early-return
structure: no-op when a recorder is already open; abort (and free what was
allocated) when the path build, output-context alloc, IO open, the video
stream-copy map, or the header write fails; audio-encoder failures only
degrade the recording. -/
def startRecorder (e : RecEnv) (s : RecState) : RecState × List RecAct :=
  if s.recCtx then (s, [])
  else if ¬ e.pathOk then
    let r := closeRecorder s
    (r.1, RecAct.buildPath :: r.2)
  else if ¬ e.allocOutputOk then
    let r := closeRecorder s
    (r.1, RecAct.buildPath :: r.2)
  else if ¬ e.openIOOk then
    let r := closeRecorder s
    (r.1, [RecAct.buildPath, RecAct.allocOC, RecAct.freeOC] ++ r.2)
  else
    let v := buildVideoStreams e.streams 0
    let sV := { s with recStreamIx := some v.1 }
    if v.1 = [] then
      let r := closeRecorder { sV with recStreamIx := none }
      (r.1, [RecAct.buildPath, RecAct.allocOC, RecAct.openIOCtx] ++ v.2
        ++ [RecAct.closeFreeIOCtx, RecAct.freeOC] ++ r.2)
    else
      let a := setupAudioEnc e.hasAudio e.aacFound e.aacAllocOk e.encOpenOk
        e.audioNewStreamOk e.swrAllocOk sV
      if ¬ e.writeHeaderOk then
        let sT := { a.1 with recStreamIx := none, aSwr := false, aEncCtx := false, aEncFrame := false }
        let r := closeRecorder sT
        (r.1, [RecAct.buildPath, RecAct.allocOC, RecAct.openIOCtx] ++ v.2
          ++ a.2 ++ [RecAct.closeFreeIOCtx, RecAct.freeOC]
          ++ (if a.1.aSwr then [RecAct.freeSwr] else [])
          ++ (if a.1.aEncCtx then [RecAct.freeAac] else [])
          ++ (if a.1.aEncFrame then [RecAct.freeEncFrame] else [])
          ++ r.2)
      else
        ({ a.1 with recCtx := true, recIOCtx := true },
          [RecAct.buildPath, RecAct.allocOC, RecAct.openIOCtx] ++ v.2 ++ a.2
            ++ [RecAct.writeHeader])

/-- Resource accounting: allocations append, frees erase. -/
def ledgerStep (l : List RecRes) : RecAct → List RecRes
  | RecAct.allocOC => l ++ [RecRes.oc]
  | RecAct.freeOC => l.erase RecRes.oc
  | RecAct.openIOCtx => l ++ [RecRes.pb]
  | RecAct.closeFreeIOCtx => l.erase RecRes.pb
  | RecAct.allocAac => l ++ [RecRes.aacCtx]
  | RecAct.freeAac => l.erase RecRes.aacCtx
  | RecAct.allocSwr => l ++ [RecRes.swr]
  | RecAct.freeSwr => l.erase RecRes.swr
  | RecAct.allocEncFrame => l ++ [RecRes.encFrame]
  | RecAct.freeEncFrame => l.erase RecRes.encFrame
  | _ => l

/-- Resources allocated by a call and not freed by it. -/
def ledger (acts : List RecAct) : List RecRes :=
  acts.foldl ledgerStep []

theorem buildVideoStreams_ledger (ss : List InStream) (n : Nat)
    (l : List RecRes) :
    List.foldl ledgerStep l (buildVideoStreams ss n).2 = l := by
  induction ss generalizing n l with
  | nil => rfl
  | cons is rest ih =>
    simp only [buildVideoStreams]
    split_ifs <;> simp [ledgerStep, ih]

theorem setupAudioEnc_recCtx (b1 b2 b3 b4 b5 b6 : Bool) (s : RecState) :
    (setupAudioEnc b1 b2 b3 b4 b5 b6 s).1.recCtx = s.recCtx := by
  simp only [setupAudioEnc]
  split_ifs <;> rfl

theorem setupAudioEnc_teardown_ledger (b1 b2 b3 b4 b5 b6 : Bool)
    (s : RecState) (h1 : s.aEncCtx = false) (h2 : s.aSwr = false)
    (h3 : s.aEncFrame = false) :
    List.foldl ledgerStep [RecRes.oc, RecRes.pb]
      ((setupAudioEnc b1 b2 b3 b4 b5 b6 s).2
        ++ [RecAct.closeFreeIOCtx, RecAct.freeOC]
        ++ (if (setupAudioEnc b1 b2 b3 b4 b5 b6 s).1.aSwr then
            [RecAct.freeSwr] else [])
        ++ (if (setupAudioEnc b1 b2 b3 b4 b5 b6 s).1.aEncCtx then
            [RecAct.freeAac] else [])
        ++ (if (setupAudioEnc b1 b2 b3 b4 b5 b6 s).1.aEncFrame then
            [RecAct.freeEncFrame] else [])) = [] := by
  rcases s with ⟨rc, rio, rsx, ae, aes, asw, aef⟩
  dsimp only at h1 h2 h3
  subst h1; subst h2; subst h3
  cases b1 <;> cases b2 <;> cases b3 <;> cases b4 <;> cases b5 <;> cases b6 <;>
    simp [setupAudioEnc, ledgerStep]

/-- Concrete environment: everything succeeds except the AAC encoder
`Open` call. -/
def recEnvAacOpenFails : RecEnv :=
  ⟨true, true, true, [⟨0, true, true, true⟩], true, true, true, false, true,
    true, true⟩

/-- Recorder fields of a camera that has never recorded. -/
def recStateClean : RecState := ⟨false, false, none, false, false, false, false⟩

/-- **C3 counterexample**: the claim lists "AAC encoder open" among the
failures that abort the recording attempt, but when only `ctx.Open` for
the AAC encoder fails, `startRecorder` logs, frees the encoder context and
continues: the header is written and the recording starts (video-only)
instead of being aborted. -/
theorem C3_counterexample_aac_open_failure :
    recEnvAacOpenFails.encOpenOk = false
  ∧ (startRecorder recEnvAacOpenFails recStateClean).1.recCtx = true
  ∧ RecAct.writeHeader ∈ (startRecorder recEnvAacOpenFails recStateClean).2 := by
  refine ⟨rfl, rfl, ?_⟩
  decide


/-- **C3 (amended)**: if the output path build, the output container
allocation, the output I/O open, the video stream-copy setup (no video
stream mapped), or the container header write fails, the recording attempt
is aborted (`recCtx` stays nil) and every resource allocated by the
attempt is freed again; `startRecorder` returns normally so the enclosing
decode loop continues.  (The claim's "AAC encoder open" failure does
*not* abort the attempt — see the counterexample.) -/
theorem C3_recorder_fatal_failure_teardown (e : RecEnv) (s : RecState)
    (h0 : s.recCtx = false) (h1 : s.aEncCtx = false) (h2 : s.aSwr = false)
    (h3 : s.aEncFrame = false)
    (hfail : e.pathOk = false ∨ e.allocOutputOk = false ∨ e.openIOOk = false
      ∨ (buildVideoStreams e.streams 0).1 = [] ∨ e.writeHeaderOk = false) :
    (startRecorder e s).1.recCtx = false
  ∧ ledger (startRecorder e s).2 = [] := by
  rcases s with ⟨rc, rio, rsx, ae, aes, asw, aef⟩
  dsimp only at h0 h1 h2 h3
  subst h0; subst h1; subst h2; subst h3
  rcases e with ⟨pOk, aOk, ioOk, strs, hasA, af, aal, eo, ans, sw, wh⟩
  dsimp only at hfail
  cases pOk
  case false =>
    constructor <;> simp [startRecorder, closeRecorder, ledger, ledgerStep]
  cases aOk
  case false =>
    constructor <;> simp [startRecorder, closeRecorder, ledger, ledgerStep]
  cases ioOk
  case false =>
    constructor <;> simp [startRecorder, closeRecorder, ledger, ledgerStep]
  by_cases hv : (buildVideoStreams strs 0).1 = []
  case pos =>
    constructor
    · simp [startRecorder, closeRecorder, hv]
    · simp [startRecorder, closeRecorder, hv, ledger, List.foldl_append,
        buildVideoStreams_ledger, ledgerStep]
  cases wh with
  | true =>
    simp at hfail
    exact absurd hfail hv
  | false =>
    have hteardown := setupAudioEnc_teardown_ledger hasA af aal eo ans sw
      ⟨false, rio, some (buildVideoStreams strs 0).1, false, aes, false, false⟩
      rfl rfl rfl
    constructor
    · simp [startRecorder, closeRecorder, hv, setupAudioEnc_recCtx]
    · simp only [startRecorder, closeRecorder, hv, setupAudioEnc_recCtx,
        ledger, List.foldl_append] at hteardown ⊢
      simp only [Bool.false_eq_true, if_false, ite_false, ite_true,
        not_false_iff, not_true, if_true, List.append_nil, List.foldl_append,
        List.foldl_cons, List.foldl_nil] at hteardown ⊢
      simpa [ledgerStep, buildVideoStreams_ledger] using hteardown

/-- Witness for the amended C3 at a concrete environment whose header
write fails: the attempt aborts and leaks nothing. -/
theorem C3_teardown_witness :
    (startRecorder
        ⟨true, true, true, [⟨0, true, true, true⟩], true, true, true, true,
          true, true, false⟩ recStateClean).1.recCtx = false
  ∧ ledger (startRecorder
        ⟨true, true, true, [⟨0, true, true, true⟩], true, true, true, true,
          true, true, false⟩ recStateClean).2 = [] :=
  C3_recorder_fatal_failure_teardown
    ⟨true, true, true, [⟨0, true, true, true⟩], true, true, true, true,
      true, true, false⟩ recStateClean rfl rfl rfl rfl
    (Or.inr (Or.inr (Or.inr (Or.inr rfl))))

/-- The actions of `closeRecorder` that release recorder resources. -/
def isFreeAct : RecAct → Bool
  | RecAct.freeOC => true
  | RecAct.closeFreeIOCtx => true
  | RecAct.freeAac => true
  | RecAct.freeSwr => true
  | RecAct.freeEncFrame => true
  | _ => false

/-- **C4**: `startRecorder` while a recorder is open is a no-op (no second
output container is allocated — no action at all is taken); `closeRecorder`
while none is open is a no-op; closing an open recorder flushes the audio
encoder (when one exists) and writes the container trailer before any
recorder resource is released, and clears all recorder state. -/
theorem C4_recorder_idempotent_lifecycle (e : RecEnv) (s t u : RecState)
    (hs : s.recCtx = true) (ht : t.recCtx = false) (hu : u.recCtx = true) :
    startRecorder e s = (s, [])
  ∧ closeRecorder t = (t, [])
  ∧ (closeRecorder u).1.recCtx = false
  ∧ (closeRecorder u).1.recIOCtx = false
  ∧ (closeRecorder u).1.recStreamIx = none
  ∧ (closeRecorder u).1.aEncCtx = false
  ∧ (closeRecorder u).1.aSwr = false
  ∧ (closeRecorder u).1.aEncFrame = false
  ∧ RecAct.writeTrailer ∈ (closeRecorder u).2
  ∧ (u.aEncCtx = true → RecAct.flushAudioEnc ∈ (closeRecorder u).2
      ∧ (closeRecorder u).2.indexOf RecAct.flushAudioEnc
          < (closeRecorder u).2.indexOf RecAct.writeTrailer)
  ∧ (∀ act ∈ (closeRecorder u).2, isFreeAct act = true →
      (closeRecorder u).2.indexOf RecAct.writeTrailer
        < (closeRecorder u).2.indexOf act) := by
  refine ⟨by simp [startRecorder, hs], by simp [closeRecorder, ht], ?_⟩
  rcases u with ⟨urc, urio, ursx, uae, uaes, uasw, uaef⟩
  dsimp only at hu
  subst hu
  cases uae <;> cases urio <;> cases uasw <;> cases uaef <;>
    simp [closeRecorder, closeRecorderActs, isFreeAct]

/-- Witness for C4 on a concrete open recorder with a live audio encode
pipeline. -/
theorem C4_lifecycle_witness :
    startRecorder recEnvAacOpenFails
        ⟨true, true, some [(0, 0)], true, true, true, true⟩
      = (⟨true, true, some [(0, 0)], true, true, true, true⟩, [])
  ∧ closeRecorder recStateClean = (recStateClean, [])
  ∧ RecAct.writeTrailer
      ∈ (closeRecorder ⟨true, true, some [(0, 0)], true, true, true, true⟩).2
  ∧ (closeRecorder
        ⟨true, true, some [(0, 0)], true, true, true, true⟩).2.indexOf
        RecAct.flushAudioEnc
      < (closeRecorder
        ⟨true, true, some [(0, 0)], true, true, true, true⟩).2.indexOf
        RecAct.writeTrailer := by
  have h := C4_recorder_idempotent_lifecycle recEnvAacOpenFails
    ⟨true, true, some [(0, 0)], true, true, true, true⟩ recStateClean
    ⟨true, true, some [(0, 0)], true, true, true, true⟩ rfl rfl rfl
  exact ⟨h.1, h.2.1, h.2.2.2.2.2.2.2.2.1, (h.2.2.2.2.2.2.2.2.2.1 rfl).2⟩

/-! ## PTS-gap drop estimator (`openAndDecode`, video.go) -/

/-- The estimator fields of `CamWindow` used by the PTS-gap block. -/
structure GapState where
  lastPktPTS : Int
  pktPtsInited : Bool
  framesDropped : Int
deriving Repr, DecidableEq

/-- Go's `math.Round`: round half away from zero. -/
def goRound (q : ℚ) : Int :=
  if 0 ≤ q then ⌊q + 1 / 2⌋ else -⌊1 / 2 - q⌋

/-- The per-video-packet PTS-gap estimator block of `openAndDecode`
(video.go), with `float64` arithmetic modelled exactly over `ℚ`:
fall back to DTS when the PTS is missing, require positive timestamps,
time base and frame rate, track the previous packet timestamp, and for a
positive gap of `deltaSec ≤ 3` seconds add
`round(deltaSec/frameDur) - 1` to the drop counter when that value lies
strictly between 0 and 120. -/
def gapStep (tbNum tbDen fpsNom fpsDen ptsRaw dts : Int) (s : GapState) :
    GapState :=
  let pts := if ptsRaw ≤ 0 then dts else ptsRaw
  if pts > 0 ∧ tbDen > 0 ∧ fpsNom > 0 ∧ fpsDen > 0 then
    if ¬ s.pktPtsInited then
      { s with lastPktPTS := pts, pktPtsInited := true }
    else
      let dPTS := pts - s.lastPktPTS
      let s1 :=
        if dPTS > 0 then
          let deltaSec : ℚ := (dPTS : ℚ) * (tbNum : ℚ) / (tbDen : ℚ)
          let frameDur : ℚ := (fpsDen : ℚ) / (fpsNom : ℚ)
          if deltaSec ≤ 3 ∧ frameDur > 0 then
            let exp := goRound (deltaSec / frameDur)
            let miss := exp - 1
            if miss > 0 ∧ miss < 120 then
              { s with framesDropped := s.framesDropped + miss }
            else s
          else s
        else s
      { s1 with lastPktPTS := pts }
  else s

/-- **C5 counterexample**: at time base 1/600, 60 fps and a packet gap of
1210 ticks (elapsed `121/60 ≤ 3` s), the computed
`missing = round(elapsed/frameDur) - 1` is exactly 120, yet the estimator
adds 0 — the code only adds when `0 < missing < 120`, so a computed
missing of 120 or more contributes nothing, not 120. -/
theorem C5_counterexample_missing_120 :
    goRound (((((1810 - 600 : Int)) : ℚ) * 1 / 600) / ((1 : ℚ) / 60)) - 1
      = 120
  ∧ ((((1810 - 600 : Int)) : ℚ) * 1 / 600) ≤ 3
  ∧ (gapStep 1 600 60 1 1810 0 ⟨600, true, 0⟩).framesDropped = 0 := by
  refine ⟨by norm_num [goRound], by norm_num, ?_⟩
  norm_num [gapStep, goRound]

theorem gapStep_framesDropped_add (tbNum tbDen fpsNom fpsDen pts dts : Int)
    (s : GapState) (hinit : s.pktPtsInited = true) (hpts : pts > 0)
    (htb : tbDen > 0) (hfn : fpsNom > 0) (hfd : fpsDen > 0)
    (hgap : pts - s.lastPktPTS > 0) (elapsed : ℚ)
    (helapsed : elapsed = ((pts - s.lastPktPTS : Int) : ℚ) * tbNum / tbDen)
    (hbound : elapsed ≤ 3) (m : Int)
    (hm : m = goRound (elapsed * fpsNom / fpsDen) - 1) :
    (gapStep tbNum tbDen fpsNom fpsDen pts dts s).framesDropped
      = s.framesDropped + (if 0 < m ∧ m < 120 then m else 0)
  ∧ (gapStep tbNum tbDen fpsNom fpsDen pts dts s).lastPktPTS = pts := by
  have hfnq : (0 : ℚ) < (fpsNom : ℚ) := by exact_mod_cast hfn
  have hfdq : (0 : ℚ) < (fpsDen : ℚ) := by exact_mod_cast hfd
  have hfdur : ((fpsDen : ℚ) / (fpsNom : ℚ)) > 0 := div_pos hfdq hfnq
  have h1 : ¬ pts ≤ 0 := not_le.mpr hpts
  have hratio :
      (((pts - s.lastPktPTS : Int) : ℚ) * (tbNum : ℚ) / (tbDen : ℚ))
          / ((fpsDen : ℚ) / (fpsNom : ℚ))
        = elapsed * (fpsNom : ℚ) / (fpsDen : ℚ) := by
    rw [helapsed, div_div_eq_mul_div]
  unfold gapStep
  rw [if_neg h1, if_pos ⟨hpts, htb, hfn, hfd⟩, if_neg (by simp [hinit])]
  simp only []
  rw [if_pos hgap]
  rw [if_pos ⟨helapsed ▸ hbound, hfdur⟩, hratio, ← hm]
  constructor
  · by_cases hc : 0 < m ∧ m < 120
    · rw [if_pos hc, if_pos hc]
    · rw [if_neg hc, if_neg hc, add_zero]
  · by_cases hc : 0 < m ∧ m < 120 <;> trivial

/-- **C5 (amended)**: for a video packet whose elapsed time since the
previous packet timestamp is positive and at most 3 seconds, with positive
time base and frame rate, the estimator computes
`m = round(elapsed * fpsNom / fpsDen) - 1` and adds `m` to the cumulative
drop counter only when `0 < m < 120`; a computed missing of 120 or more
(or of 0 or less) contributes nothing.  The last packet timestamp is
updated to the current one. -/
theorem C5_amended_clamp_window (tbNum tbDen fpsNom fpsDen pts dts : Int)
    (s : GapState) (hinit : s.pktPtsInited = true) (hpts : pts > 0)
    (htb : tbDen > 0) (hfn : fpsNom > 0) (hfd : fpsDen > 0)
    (hgap : pts - s.lastPktPTS > 0) (elapsed : ℚ)
    (helapsed : elapsed = ((pts - s.lastPktPTS : Int) : ℚ) * tbNum / tbDen)
    (hbound : elapsed ≤ 3) (m : Int)
    (hm : m = goRound (elapsed * fpsNom / fpsDen) - 1) :
    (gapStep tbNum tbDen fpsNom fpsDen pts dts s).framesDropped
      = s.framesDropped + (if 0 < m ∧ m < 120 then m else 0)
  ∧ (gapStep tbNum tbDen fpsNom fpsDen pts dts s).lastPktPTS = pts :=
  gapStep_framesDropped_add tbNum tbDen fpsNom fpsDen pts dts s hinit hpts
    htb hfn hfd hgap elapsed helapsed hbound m hm

/-- Witness for the amended C5: a 3-frame gap (elapsed 1/20 s at 60 fps)
adds exactly 2 to a counter standing at 5. -/
theorem C5_clamp_witness :
    (gapStep 1 600 60 1 630 0 ⟨600, true, 5⟩).framesDropped = 7 := by
  have h := C5_amended_clamp_window 1 600 60 1 630 0 ⟨600, true, 5⟩ rfl
    (by norm_num) (by norm_num) (by norm_num) (by norm_num) (by norm_num)
    (1 / 20) (by norm_num) (by norm_num) 2 (by norm_num [goRound])
  rw [h.1]
  norm_num

/-- **C6**: a packet gap of exactly 3 nominal frame durations (within the
3-second bound) adds exactly 2 to the missing-frame counter; a gap whose
elapsed time exceeds 3 seconds adds 0. -/
theorem C6_three_frame_gap_vs_discontinuity :
    (∀ (tbNum tbDen fpsNom fpsDen pts dts : Int) (s : GapState),
      s.pktPtsInited = true → pts > 0 → tbDen > 0 → fpsNom > 0 →
      fpsDen > 0 → pts - s.lastPktPTS > 0 →
      ((pts - s.lastPktPTS : Int) : ℚ) * tbNum / tbDen
          = 3 * ((fpsDen : ℚ) / (fpsNom : ℚ)) →
      ((pts - s.lastPktPTS : Int) : ℚ) * tbNum / tbDen ≤ 3 →
      (gapStep tbNum tbDen fpsNom fpsDen pts dts s).framesDropped
        = s.framesDropped + 2)
  ∧ (∀ (tbNum tbDen fpsNom fpsDen pts dts : Int) (s : GapState),
      s.pktPtsInited = true → pts > 0 → tbDen > 0 → fpsNom > 0 →
      fpsDen > 0 →
      ((pts - s.lastPktPTS : Int) : ℚ) * tbNum / tbDen > 3 →
      (gapStep tbNum tbDen fpsNom fpsDen pts dts s).framesDropped
        = s.framesDropped) := by
  constructor
  · intro tbNum tbDen fpsNom fpsDen pts dts s hinit hpts htb hfn hfd hgap
      hexact hbound
    have hfnq : (0 : ℚ) < (fpsNom : ℚ) := by exact_mod_cast hfn
    have hfdq : (0 : ℚ) < (fpsDen : ℚ) := by exact_mod_cast hfd
    have hm : (2 : Int)
        = goRound ((3 * ((fpsDen : ℚ) / (fpsNom : ℚ))) * fpsNom / fpsDen)
            - 1 := by
      have h3 : (3 * ((fpsDen : ℚ) / (fpsNom : ℚ))) * fpsNom / fpsDen
          = 3 := by
        field_simp
      rw [h3]
      norm_num [goRound]
    have h := gapStep_framesDropped_add tbNum tbDen fpsNom fpsDen pts dts s
      hinit hpts htb hfn hfd hgap (3 * ((fpsDen : ℚ) / (fpsNom : ℚ)))
      hexact.symm (hexact ▸ hbound) 2 hm
    rw [h.1]
    norm_num
  · intro tbNum tbDen fpsNom fpsDen pts dts s hinit hpts htb hfn hfd hlarge
    have h1 : ¬ pts ≤ 0 := not_le.mpr hpts
    unfold gapStep
    rw [if_neg h1, if_pos ⟨hpts, htb, hfn, hfd⟩, if_neg (by simp [hinit])]
    simp only []
    by_cases hd : pts - s.lastPktPTS > 0
    · rw [if_pos hd,
        if_neg (fun hcond => absurd hcond.1 (not_le.mpr hlarge))]
    · rw [if_neg hd]

/-- Witness for C6 at time base 1/90000 and 30 fps: a 9000-tick gap
(0.1 s = 3 frames) adds 2; a 360000-tick gap (4 s) adds 0. -/
theorem C6_witness :
    (gapStep 1 90000 30 1 9001 0 ⟨1, true, 0⟩).framesDropped = 2
  ∧ (gapStep 1 90000 30 1 360001 0 ⟨1, true, 0⟩).framesDropped = 0 := by
  have h := C6_three_frame_gap_vs_discontinuity
  constructor
  · have ha := h.1 1 90000 30 1 9001 0 ⟨1, true, 0⟩ rfl (by norm_num)
      (by norm_num) (by norm_num) (by norm_num) (by norm_num)
      (by norm_num) (by norm_num)
    rw [ha]
    norm_num
  · have hb := h.2 1 90000 30 1 360001 0 ⟨1, true, 0⟩ rfl (by norm_num)
      (by norm_num) (by norm_num) (by norm_num) (by norm_num)
    rw [hb]

/-! ## FFmpeg parameter parsing (`parseFFmpegParams`, utils) -/

/-- `unicode.IsSpace` on the ASCII fragment (the separators
`strings.Fields` splits on; the inputs involved are ASCII). -/
def goIsSpace (c : Char) : Bool :=
  c = ' ' ∨ c = Char.ofNat 9 ∨ c = Char.ofNat 10 ∨ c = Char.ofNat 11
    ∨ c = Char.ofNat 12 ∨ c = Char.ofNat 13

/-- Accumulator pass of `strings.Fields`. -/
def goFieldsAux : List Char → List Char → List (List Char)
  | [], acc => if acc.isEmpty then [] else [acc.reverse]
  | c :: cs, acc =>
    if goIsSpace c then
      if acc.isEmpty then goFieldsAux cs []
      else acc.reverse :: goFieldsAux cs []
    else goFieldsAux cs (c :: acc)

/-- `strings.Fields`: split around runs of whitespace. -/
def goFields (s : List Char) : List (List Char) := goFieldsAux s []

/-- The double-quote character. -/
def dquote : Char := Char.ofNat 34

/-- The single-quote character. -/
def squote : Char := Char.ofNat 39

/-- The quote-stripping step of `parseFFmpegParams`: remove one pair of
matching surrounding double or single quotes, when present. -/
def stripMatchingQuotes (v : List Char) : List Char :=
  if 2 ≤ v.length ∧
      ((v.head? = some dquote ∧ v.getLast? = some dquote)
        ∨ (v.head? = some squote ∧ v.getLast? = some squote)) then
    (v.drop 1).dropLast
  else v

/-- Go map insertion `m[k] = v` on an association-list model. -/
def mapUpsert (m : List (List Char × List Char)) (k v : List Char) :
    List (List Char × List Char) :=
  if m.any (fun p => p.1 = k) then
    m.map (fun p => if p.1 = k then (k, v) else p)
  else m ++ [(k, v)]

/-- The two result maps of `parseFFmpegParams`. -/
structure FFmpegOpts where
  fopts : List (List Char × List Char)
  copts : List (List Char × List Char)
deriving DecidableEq, Repr

/-- The loop body of `parseFFmpegParams` (utils) for one token: require
length at least 3 and a leading `-`; find the first `=` in the remainder
after the single prefix character; require a non-empty key (`=` not in
position 0) and a non-empty value (`=` not last); strip matching quotes;
store under the `f` (format) or `c` (decoder) map, ignoring any other
prefix character. -/
def parseTokenStep (acc : FFmpegOpts) (tok : List Char) : FFmpegOpts :=
  if tok.length < 3 then acc
  else
    match tok with
    | t0 :: pc :: rest =>
      if t0 ≠ '-' then acc
      else
        match rest.findIdx? (fun c => c = '=') with
        | none => acc
        | some eq =>
          if eq = 0 ∨ eq = rest.length - 1 then acc
          else
            let key := rest.take eq
            let val := stripMatchingQuotes (rest.drop (eq + 1))
            if pc = 'f' then { acc with fopts := mapUpsert acc.fopts key val }
            else if pc = 'c' then
              { acc with copts := mapUpsert acc.copts key val }
            else acc
    | _ => acc

/-- `parseFFmpegParams` (utils): split the parameter string into fields
and fold the token step over them, starting from empty maps. -/
def parseFFmpegParams (s : List Char) : FFmpegOpts :=
  (goFields s).foldl parseTokenStep ⟨[], []⟩

/-- **C7**: the spec's example parameter string parses to format options
`stimeout=5000000, user_agent=My/1.0` (quotes stripped) and decoder
options `threads=2`, with `-badtoken` ignored. -/
theorem C7_parse_example :
    parseFFmpegParams
        ("-fstimeout=5000000 -cthreads=2 -badtoken -fuser_agent=\"My/1.0\"".toList)
      = ⟨[("stimeout".toList, "5000000".toList),
          ("user_agent".toList, "My/1.0".toList)],
         [("threads".toList, "2".toList)]⟩ := by
  decide

theorem findIdx?_some_bound {p : Char → Bool} :
    ∀ (l : List Char) (i j : Nat), List.findIdx? p l i = some j →
      i ≤ j ∧ j < i + l.length := by
  intro l
  induction l with
  | nil => intro i j h; simp [List.findIdx?] at h
  | cons x xs ih =>
    intro i j h
    rw [List.findIdx?_cons] at h
    by_cases hp : p x = true
    · rw [if_pos hp] at h
      have : j = i := by
        injection h with h'
        omega
      subst this
      simp
    · rw [if_neg hp] at h
      have := ih (i + 1) j h
      constructor <;> [omega; (simp [List.length_cons]; omega)]

/-- **C10**: `parseFFmpegParams` accepts only tokens of the form
`-<f|c><key>=<value>` with non-empty key and value: whenever the token
step changes the maps, the token starts with `-` followed by `f` or `c`
and its remainder has a first `=` that is neither at the start (empty key)
nor last (empty value); in particular `-fkey=`, `-f=value` and
`-xkey=value` are all silently ignored. -/
theorem C10_only_wellformed_tokens_accepted :
    (∀ (tok : List Char) (acc : FFmpegOpts), parseTokenStep acc tok ≠ acc →
      ∃ pc rest i, tok = '-' :: pc :: rest ∧ (pc = 'f' ∨ pc = 'c')
        ∧ rest.findIdx? (fun c => c = '=') = some i
        ∧ rest.take i ≠ [] ∧ rest.drop (i + 1) ≠ [])
  ∧ (∀ acc, parseTokenStep acc ("-fkey=".toList) = acc)
  ∧ (∀ acc, parseTokenStep acc ("-f=value".toList) = acc)
  ∧ (∀ acc, parseTokenStep acc ("-xkey=value".toList) = acc) := by
  refine ⟨?_, ?_, ?_, ?_⟩
  · intro tok acc h
    rcases tok with _ | ⟨t0, tok1⟩
    · exact absurd rfl h
    rcases tok1 with _ | ⟨pc, rest⟩
    · exact absurd rfl h
    by_cases hlen : (t0 :: pc :: rest).length < 3
    · rw [parseTokenStep, if_pos hlen] at h
      exact absurd rfl h
    rw [parseTokenStep, if_neg hlen] at h
    by_cases ht0 : t0 ≠ '-'
    · rw [if_pos ht0] at h
      exact absurd rfl h
    rw [if_neg ht0] at h
    push_neg at ht0
    subst ht0
    cases hfind : rest.findIdx? (fun c => c = '=') with
    | none =>
      rw [hfind] at h
      dsimp only at h
      exact absurd rfl h
    | some i =>
      rw [hfind] at h
      dsimp only at h
      by_cases hguard : i = 0 ∨ i = rest.length - 1
      · rw [if_pos hguard] at h
        exact absurd rfl h
      rw [if_neg hguard] at h
      push_neg at hguard
      have hbound := findIdx?_some_bound rest 0 i hfind
      have hrest : rest ≠ [] := by
        intro hnil
        subst hnil
        have h2 := hbound.2
        simp at h2
      refine ⟨pc, rest, i, rfl, ?_, hfind, ?_, ?_⟩
      · by_cases hf : pc = 'f'
        · exact Or.inl hf
        by_cases hc : pc = 'c'
        · exact Or.inr hc
        rw [if_neg hf, if_neg hc] at h
        exact absurd rfl h
      · intro htake
        rcases List.take_eq_nil_iff.mp htake with h0 | h0
        · exact hguard.1 h0
        · exact hrest h0
      · intro hdrop
        have : rest.length ≤ i + 1 := by
          simpa using List.drop_eq_nil_iff.mp hdrop
        omega
  · intro acc
    rfl
  · intro acc
    rfl
  · intro acc
    rfl

/-- Witness for C10's general part at the accepted token `-fk=v`. -/
theorem C10_shape_witness :
    ∃ pc rest i, "-fk=v".toList = '-' :: pc :: rest ∧ (pc = 'f' ∨ pc = 'c')
      ∧ rest.findIdx? (fun c => c = '=') = some i
      ∧ rest.take i ≠ [] ∧ rest.drop (i + 1) ≠ [] :=
  C10_only_wellformed_tokens_accepted.1 ("-fk=v".toList) ⟨[], []⟩ (by decide)

/-! ## Health score heuristic (`newCamWindow` metrics timer, camera.go) -/

/-- The 0–5 health heuristic computed each metrics interval (camera.go):
score from FPS thresholds 24/15/5/0, then one step down (floored at 0)
when the drop percentage exceeds 10. -/
def healthScore (fps dropsPct : ℚ) : Int :=
  let score : Int :=
    if fps ≥ 24 then 5
    else if fps ≥ 15 then 4
    else if fps ≥ 5 then 3
    else if fps > 0 then 2
    else 0
  if dropsPct > 10 then (if score > 0 then score - 1 else score) else score

/-- **C8**: FPS values 30, 20, 10, 1, 0 map to health scores 5, 4, 3, 2, 0
when the interval's drop percentage is at most 10%; when it exceeds 10%,
each non-zero score drops by exactly 1 and the zero score stays 0. -/
theorem C8_health_mapping (d d' : ℚ) (hd : d ≤ 10) (hd' : d' > 10) :
    healthScore 30 d = 5 ∧ healthScore 20 d = 4 ∧ healthScore 10 d = 3
  ∧ healthScore 1 d = 2 ∧ healthScore 0 d = 0
  ∧ healthScore 30 d' = 4 ∧ healthScore 20 d' = 3 ∧ healthScore 10 d' = 2
  ∧ healthScore 1 d' = 1 ∧ healthScore 0 d' = 0 := by
  have hnd : ¬ d > 10 := not_lt.mpr hd
  refine ⟨?_, ?_, ?_, ?_, ?_, ?_, ?_, ?_, ?_, ?_⟩ <;>
    simp [healthScore, hnd, hd'] <;> norm_num

/-- Witness for C8 at drop percentages 0 and 50. -/
theorem C8_health_witness :
    healthScore 30 0 = 5 ∧ healthScore 1 0 = 2 ∧ healthScore 30 50 = 4
  ∧ healthScore 0 50 = 0 := by
  have h1 := C8_health_mapping 0 50 (by norm_num) (by norm_num)
  exact ⟨h1.1, h1.2.2.2.1, h1.2.2.2.2.2.1, h1.2.2.2.2.2.2.2.2.2⟩

/-! ## Recording path sanitisation (`sanitizeFSComponent`, utils) -/

/-- `strings.TrimSpace` on the ASCII fragment: drop whitespace from both
ends. -/
def goTrimSpace (s : List Char) : List Char :=
  ((s.dropWhile goIsSpace).reverse.dropWhile goIsSpace).reverse

/-- The `strings.NewReplacer` pattern/replacement pairs of
`sanitizeFSComponent` (utils), in source order. -/
def fsReplacerPairs : List (Char × Char) :=
  [('/', '_'), ('\\', '_'), (':', '_'), ('*', '_'), ('?', '_'),
    (Char.ofNat 34, '_'), ('<', '_'), ('>', '_'), ('|', '_')]

/-- A `strings.Replacer` whose patterns are all single characters: replace
a character by its first matching pair, else keep it. -/
def applyReplacer (ps : List (Char × Char)) (c : Char) : Char :=
  match ps.find? (fun p => p.1 = c) with
  | some p => p.2
  | none => c

/-- `sanitizeFSComponent` (utils): trim whitespace, fall back to the
literal `camera` when nothing is left, else replace every
filesystem-hostile character with an underscore. -/
def sanitizeFSComponent (s : List Char) : List Char :=
  let t := goTrimSpace s
  if t = [] then "camera".toList
  else t.map (applyReplacer fsReplacerPairs)

/-- The characters `sanitizeFSComponent` replaces. -/
def fsBadChars : List Char := fsReplacerPairs.map Prod.fst

theorem applyReplacer_eq (c : Char) :
    applyReplacer fsReplacerPairs c
      = if c ∈ fsBadChars then '_' else c := by
  by_cases h : c ∈ fsBadChars
  · rw [if_pos h]
    simp only [fsBadChars, fsReplacerPairs, List.map_cons, List.map_nil,
      List.mem_cons, List.not_mem_nil, or_false] at h
    rcases h with h | h | h | h | h | h | h | h | h <;> subst h <;> rfl
  · rw [if_neg h]
    have hfind : fsReplacerPairs.find? (fun p => p.1 = c) = none := by
      rw [List.find?_eq_none]
      intro p hp
      simp only [decide_eq_true_eq]
      intro hpc
      apply h
      rw [← hpc]
      exact List.mem_map_of_mem Prod.fst hp
    rw [applyReplacer, hfind]

/-- **C9**: `sanitizeFSComponent` returns the literal `camera` when the
input is empty after trimming whitespace; otherwise it keeps the trimmed
input's length, maps every occurrence of `/ \ : * ? " < > |` to an
underscore and leaves every other character unchanged. -/
theorem C9_sanitize_component (s : List Char) :
    (goTrimSpace s = [] → sanitizeFSComponent s = "camera".toList)
  ∧ (goTrimSpace s ≠ [] →
      (sanitizeFSComponent s).length = (goTrimSpace s).length
    ∧ ∀ i (hi : i < (goTrimSpace s).length)
        (hr : i < (sanitizeFSComponent s).length),
        ((goTrimSpace s).get ⟨i, hi⟩ ∈ fsBadChars →
          (sanitizeFSComponent s).get ⟨i, hr⟩ = '_')
      ∧ ((goTrimSpace s).get ⟨i, hi⟩ ∉ fsBadChars →
          (sanitizeFSComponent s).get ⟨i, hr⟩
            = (goTrimSpace s).get ⟨i, hi⟩)) := by
  constructor
  · intro ht
    simp [sanitizeFSComponent, ht]
  · intro ht
    have hs : sanitizeFSComponent s
        = (goTrimSpace s).map (applyReplacer fsReplacerPairs) := by
      simp [sanitizeFSComponent, ht]
    constructor
    · rw [hs, List.length_map]
    · intro i hi hr
      have hget : (sanitizeFSComponent s).get ⟨i, hr⟩
          = applyReplacer fsReplacerPairs ((goTrimSpace s).get ⟨i, hi⟩) := by
        have : (sanitizeFSComponent s).get ⟨i, hr⟩
            = (sanitizeFSComponent s)[i] := rfl
        rw [this]
        simp only [hs, List.getElem_map]
        rfl
      rw [hget, applyReplacer_eq]
      constructor
      · intro hmem
        rw [if_pos hmem]
      · intro hmem
        rw [if_neg hmem]

/-- Witness for C9: `" a/b "` trims to `a/b` and sanitises position 1 to
an underscore while keeping `a` and `b`. -/
theorem C9_sanitize_witness :
    sanitizeFSComponent ("   ".toList) = "camera".toList
  ∧ (sanitizeFSComponent (" a/b ".toList)).length
      = (goTrimSpace (" a/b ".toList)).length := by
  constructor
  · exact (C9_sanitize_component ("   ".toList)).1 (by decide)
  · exact ((C9_sanitize_component (" a/b ".toList)).2 (by decide)).1
